import Mathlib

/-!
Verification of the docx text extractor (`src/read_docx.py`).

The program opens a zip package, reads the entry `word/document.xml`,
parses it as an XML tree, collects for every `w:p` element (found by the
recursive descendant search `.//w:p`) the text of every `w:t` beneath
every `w:r` beneath it (again recursive searches), joins paragraph texts
with a newline and writes the result to the output path; every exception
is caught and turned into the boolean result `false`.
-/

namespace ReadDocx

/-- The WordprocessingML namespace URI used in `read_docx.py`. -/
def wNS : String := "http://schemas.openxmlformats.org/wordprocessingml/2006/main"

/-- ElementTree resolves `w:p` to its Clark notation `\x7bns\x7dp`. -/
def wP : String := "\x7b" ++ wNS ++ "\x7dp"

/-- Resolved tag of a run element `w:r`. -/
def wR : String := "\x7b" ++ wNS ++ "\x7dr"

/-- Resolved tag of a text element `w:t`. -/
def wT : String := "\x7b" ++ wNS ++ "\x7dt"

/-- An ElementTree element: a tag, an optional text payload (`t.text`,
which is `None` for an element without character data) and the list of
child elements, in document order. -/
inductive XElem : Type where
  | node (tag : String) (text : Option String) (children : List XElem)

def XElem.tag : XElem → String
  | .node t _ _ => t

def XElem.text : XElem → Option String
  | .node _ tx _ => tx

def XElem.children : XElem → List XElem
  | .node _ _ cs => cs

mutual
/-- All proper descendants of an element in document (preorder) order;
this is the node set searched by ElementTree's `.//` path. -/
def XElem.descendants : XElem → List XElem
  | .node _ _ cs => descList cs

/-- Descendants of a forest of siblings, in document order. -/
def descList : List XElem → List XElem
  | [] => []
  | c :: cs => c :: (XElem.descendants c ++ descList cs)
end

/-- `e.findall('.//TAG')`: every descendant of `e` whose tag is `tag`,
in document order. -/
def findallDesc (tag : String) (e : XElem) : List XElem :=
  e.descendants.filter (fun d => d.tag = tag)

/-- `if t.text:` — the fragment appended by the inner loop: `t.text`
when it is present and non-empty (Python truthiness), nothing otherwise. -/
def truthyText (t : XElem) : Option String :=
  match t.text with
  | some s => if s = "" then none else some s
  | none => none

/-- The fragments collected from one run `r`: the truthy texts of
`r.findall('.//w:t')` in document order. -/
def collectTexts (r : XElem) : List String :=
  (findallDesc wT r).filterMap truthyText

/-- The `p_text` list of one paragraph: fragments of all runs of
`p.findall('.//w:r')`, concatenated run by run. -/
def fragments (p : XElem) : List String :=
  (findallDesc wR p).flatMap collectTexts

/-- `''.join` of Python: concatenation with no separator. -/
def joinEmpty : List String → String
  | [] => ""
  | s :: rest => s ++ joinEmpty rest

/-- The text of one paragraph: `''.join(p_text)`. -/
def paraText (p : XElem) : String :=
  joinEmpty (fragments p)

/-- The `text` list built by the main loop over `tree.findall('.//w:p')`:
one string per paragraph element, in document order. -/
def extract (root : XElem) : List String :=
  (findallDesc wP root).map paraText

/-- `'\n'.join` of Python: a single newline between consecutive entries,
no trailing newline. -/
def joinNL : List String → String
  | [] => ""
  | [s] => s
  | s :: rest => s ++ "\n" ++ joinNL rest

/-- `full_text`, the content written to the output file. -/
def fullText (root : XElem) : String :=
  joinNL (extract root)

/-!
## Spec-scoped traversal

The spec (§4.1 step 4) demands that runs be scoped to their own
paragraph.  `scopedDesc` is the corresponding search: it descends like
`descendants` but does not look inside a nested element carrying the
`stop` tag, so a run nested inside an inner paragraph is not attributed
to the outer one.  These definitions follow the spec's words, not the
code; they exist to compare the code's deep search against them.
-/

mutual
/-- Modelled from the spec: descendants of `e`, not descending into an
element whose tag is `stop` (that element itself is still listed). -/
def XElem.scopedDesc (stop : String) : XElem → List XElem
  | .node _ _ cs => scopedDescList stop cs

/-- Modelled from the spec: scoped descendants of a forest. -/
def scopedDescList (stop : String) : List XElem → List XElem
  | [] => []
  | c :: cs =>
    if c.tag = stop then c :: scopedDescList stop cs
    else c :: (XElem.scopedDesc stop c ++ scopedDescList stop cs)
end

/-- Modelled from the spec: the runs belonging to paragraph `p` — run
descendants of `p` that are not inside a nested paragraph. -/
def scopedRuns (p : XElem) : List XElem :=
  (p.scopedDesc wP).filter (fun d => d.tag = wR)

/-- Modelled from the spec: the paragraph text collected only from the
paragraph's own runs. -/
def scopedParaText (p : XElem) : String :=
  joinEmpty (scopedRuns p |>.flatMap collectTexts)

/-- Modelled from the spec: extraction with runs scoped to their own
paragraph. -/
def extractScoped (root : XElem) : List String :=
  (findallDesc wP root).map scopedParaText

/-!
## The package, the filesystem and `read_docx`

`read_docx` touches the outside world: it reads `file_path`, writes
`output_path` and converts every exception into the result `False`.
We model file contents with just enough structure to express the
distinctions the code makes: a file either is a zip archive (a list of
named entries) or it is not (`rawText`, which is also what the output
write produces); an archive entry either parses as an XML tree
(`xmlDoc`) or is malformed (`rawBytes`).
-/

/-- One entry of the zip package: either bytes that parse as an XML
tree, or bytes on which `ET.fromstring` raises `ParseError`. -/
inductive EntryData : Type where
  | xmlDoc (root : XElem)
  | rawBytes (s : String)

/-- Contents of a file on disk: either a valid zip archive with named
entries, or non-archive data (plain text, such as the extractor's own
output) on which `zipfile.ZipFile` raises `BadZipFile`. -/
inductive FileData : Type where
  | zipArchive (entries : List (String × EntryData))
  | rawText (s : String)

/-- The fixed internal entry path read from the package. -/
def docEntry : String := "word/document.xml"

/-- The exceptions the `try` block can raise, by program point.
`fileNotFound` and `badZipFile` are the spec's `PackageError` for the
archive itself, `keyError` its `PackageError` for the missing entry,
`parseError` the spec's `FormatError`. -/
inductive DocxError : Type where
  | fileNotFound
  | badZipFile
  | keyError
  | parseError
deriving DecidableEq, Repr

/-- The steps after the zip has been opened: `z.read` of the fixed
entry (raising `KeyError` when absent), `ET.fromstring` of its bytes
(raising `ParseError` when malformed), then the traversal. -/
def parseEntry : Option EntryData → Except DocxError (List String)
  | none => .error .keyError
  | some (.rawBytes _) => .error .parseError
  | some (.xmlDoc root) => .ok (extract root)

/-- The extraction phase of `read_docx` (lines 8–30): open the zip, read
`word/document.xml`, parse it, and collect the paragraph strings; each
failure point is the exception the corresponding library call raises. -/
def extractDoc : Option FileData → Except DocxError (List String)
  | none => .error .fileNotFound
  | some (.rawText _) => .error .badZipFile
  | some (.zipArchive entries) => parseEntry (entries.lookup docEntry)

/-- The filesystem: an association list from paths to file contents
(later writes shadow earlier ones). -/
structure FS : Type where
  files : List (String × FileData)

/-- Contents at a path, `none` when no file exists there. -/
def FS.readFile (fs : FS) (p : String) : Option FileData :=
  fs.files.lookup p

/-- `open(p, 'w')` followed by one write: create or truncate the file at
`p` so that it afterwards holds `d`. -/
def FS.writeFile (fs : FS) (p : String) (d : FileData) : FS :=
  ⟨(p, d) :: fs.files⟩

/-- `read_docx(file_path, output_path)`: run the extraction; on any
exception return `false` touching nothing; on success write the joined
text to `output_path` and return `true`. -/
def read_docx (fs : FS) (file_path output_path : String) : Bool × FS :=
  match extractDoc (fs.readFile file_path) with
  | .error _ => (false, fs)
  | .ok texts => (true, fs.writeFile output_path (.rawText (joinNL texts)))

/-- Newline count of a string. -/
def countNL (s : String) : Nat :=
  s.toList.count '\n'

end ReadDocx

/-!
## Concrete documents and filesystems used as test inputs
-/

namespace Examples

open ReadDocx

/-- `<w:t>Hello</w:t>` -/
def tHello : XElem := .node wT (some "Hello") []

/-- `<w:t>World</w:t>` -/
def tWorld : XElem := .node wT (some "World") []

/-- `<w:r><w:t>Hello</w:t></w:r>` -/
def rHello : XElem := .node wR none [tHello]

/-- `<w:r><w:t>World</w:t></w:r>` -/
def rWorld : XElem := .node wR none [tWorld]

/-- A paragraph with one run holding `Hello`. -/
def pHello : XElem := .node wP none [rHello]

/-- A paragraph with no runs at all. -/
def pEmptyPara : XElem := .node wP none []

/-- A paragraph with one run holding `World`. -/
def pWorld : XElem := .node wP none [rWorld]

/-- A document whose three paragraphs carry `Hello`, nothing, `World` —
the round-trip example of the spec. -/
def helloRoot : XElem := .node "document" none [pHello, pEmptyPara, pWorld]

/-- `<w:t>X</w:t>` -/
def tX : XElem := .node wT (some "X") []

/-- `<w:r><w:t>X</w:t></w:r>` -/
def rX : XElem := .node wR none [tX]

/-- An inner paragraph owning the single run `rX`. -/
def pInner : XElem := .node wP none [rX]

/-- Pathological markup: a paragraph whose only child is another
paragraph; the run `rX` belongs to `pInner`, not to `pOuter`. -/
def pOuter : XElem := .node wP none [pInner]

/-- A document with the nested-paragraph markup. -/
def nestedRoot : XElem := .node "document" none [pOuter]

/-- A single paragraph whose text node contains a literal newline. -/
def pNewline : XElem := .node wP none [.node wR none [.node wT (some "a\nb") []]]

/-- A document with one paragraph whose text contains a newline. -/
def nlRoot : XElem := .node "document" none [pNewline]

/-- A valid package around `helloRoot`. -/
def helloPkg : FileData := .zipArchive [(docEntry, .xmlDoc helloRoot)]

/-- A filesystem holding the valid package at `in.docx`. -/
def fsHello : FS := ⟨[("in.docx", helloPkg)]⟩

/-- A filesystem holding the valid package at `a` — used with the output
path also `a`, so that the write clobbers the input. -/
def fsAlias : FS := ⟨[("a", helloPkg)]⟩

/-- A valid archive that lacks the `word/document.xml` entry. -/
def fsNoEntry : FS := ⟨[("in.docx", .zipArchive [("other.xml", .rawBytes "junk")])]⟩

/-- A well-formed package whose document markup has no paragraph at all. -/
def fsEmptyDoc : FS := ⟨[("in.docx", .zipArchive [(docEntry, .xmlDoc (.node "document" none []))])]⟩

end Examples

/-!
## Helper lemmas
-/

namespace ReadDocx

theorem length_extract (root : XElem) :
    (extract root).length = (findallDesc wP root).length :=
  List.length_map _ _

theorem countNL_append (a b : String) :
    countNL (a ++ b) = countNL a + countNL b := by
  show (a ++ b).toList.count '\n' = _
  rw [show (a ++ b).toList = a.toList ++ b.toList from rfl, List.count_append]
  rfl

theorem countNL_joinNL (l : List String) (h : ∀ s ∈ l, countNL s = 0) :
    countNL (joinNL l) = l.length - 1 := by
  induction l with
  | nil => rfl
  | cons s rest ih =>
    cases rest with
    | nil =>
      have hs := h s (by simp)
      simpa [joinNL] using hs
    | cons t ts =>
      have hs := h s (by simp)
      have hrest : ∀ x ∈ t :: ts, countNL x = 0 := fun x hx => h x (by simp [hx])
      have := ih hrest
      rw [show joinNL (s :: t :: ts) = s ++ "\n" ++ joinNL (t :: ts) from rfl,
        countNL_append, countNL_append, hs, this]
      have h1 : countNL "\n" = 1 := rfl
      rw [h1]
      simp only [List.length_cons]
      omega

theorem length_joinEmpty (l : List String) :
    (joinEmpty l).length = (l.map String.length).sum := by
  induction l with
  | nil => rfl
  | cons s rest ih => simp [joinEmpty, String.length_append, ih]

mutual
theorem scopedDesc_eq_descendants (stop : String) (e : XElem)
    (h : ∀ d ∈ e.descendants, d.tag ≠ stop) :
    e.scopedDesc stop = e.descendants := by
  cases e with
  | node t tx cs =>
    show scopedDescList stop cs = descList cs
    exact scopedDescList_eq_descList stop cs (fun d hd => h d hd)

theorem scopedDescList_eq_descList (stop : String) (cs : List XElem)
    (h : ∀ d ∈ descList cs, d.tag ≠ stop) :
    scopedDescList stop cs = descList cs := by
  cases cs with
  | nil => rfl
  | cons c cs' =>
    have hc : c.tag ≠ stop := h c (by simp [descList])
    have hcdesc : ∀ d ∈ c.descendants, d.tag ≠ stop := fun d hd =>
      h d (by simp [descList, hd])
    have hcs' : ∀ d ∈ descList cs', d.tag ≠ stop := fun d hd =>
      h d (by simp [descList, hd])
    rw [show scopedDescList stop (c :: cs') =
        (if c.tag = stop then c :: scopedDescList stop cs'
         else c :: (XElem.scopedDesc stop c ++ scopedDescList stop cs')) from rfl]
    rw [if_neg hc, scopedDesc_eq_descendants stop c hcdesc,
      scopedDescList_eq_descList stop cs' hcs']
    rfl
end

theorem readFile_writeFile_same (fs : FS) (p : String) (d : FileData) :
    (fs.writeFile p d).readFile p = some d := by
  simp [FS.readFile, FS.writeFile, List.lookup]

theorem readFile_writeFile_ne (fs : FS) (p q : String) (d : FileData)
    (h : q ≠ p) :
    (fs.writeFile p d).readFile q = fs.readFile q := by
  simp [FS.readFile, FS.writeFile, List.lookup, beq_eq_false_iff_ne.mpr h]

theorem scopedRuns_eq_findallDesc (p : XElem)
    (h : ∀ d ∈ p.descendants, d.tag ≠ wP) :
    scopedRuns p = findallDesc wR p := by
  unfold scopedRuns findallDesc
  rw [scopedDesc_eq_descendants wP p h]

end ReadDocx

/-!
## The claims
-/

open ReadDocx Examples

/-- C1, counterexample.  In the nested markup `nestedRoot` the only run
`rX` of the whole document is a child of `pInner`, so it belongs to
`pInner` and not to `pOuter` (indeed `pOuter` owns no run at all:
`scopedRuns pOuter = []`).  Yet the code's deep search gives `pOuter`
the text `"X"`, so a run located under a different paragraph does
contribute to the text of a paragraph other than its own, and the
fragment is collected twice overall. -/
theorem c1_counterexample :
    ReadDocx.extract nestedRoot = ["X", "X"] ∧
    ReadDocx.extractScoped nestedRoot = ["", "X"] ∧
    ReadDocx.paraText pOuter = "X" ∧
    ReadDocx.scopedRuns pOuter = [] :=
  ⟨rfl, rfl, rfl, rfl⟩

/-- C1, amended.  When no paragraph element is nested inside another
paragraph (for every paragraph of the document, no descendant is again
a paragraph), the code's deep searches agree with the spec's
paragraph-scoped traversal: every run contributes only to the text of
its own paragraph, and the extraction equals the scoped extraction. -/
theorem c1_no_leak_without_nested_paragraphs (root : ReadDocx.XElem)
    (h : ∀ p ∈ ReadDocx.findallDesc ReadDocx.wP root,
      ∀ d ∈ p.descendants, d.tag ≠ ReadDocx.wP) :
    ReadDocx.extract root = ReadDocx.extractScoped root := by
  refine List.map_eq_map_iff.mpr ?_
  intro p hp
  show joinEmpty (fragments p) = joinEmpty ((scopedRuns p).flatMap collectTexts)
  rw [scopedRuns_eq_findallDesc p (h p hp)]
  rfl

/-- C1, witness: the flat document `helloRoot` has no nested paragraph,
and on it the code's extraction and the scoped extraction agree. -/
theorem c1_witness :
    ReadDocx.extract helloRoot = ReadDocx.extractScoped helloRoot :=
  c1_no_leak_without_nested_paragraphs helloRoot (by decide)

/-- C2, counterexample.  `nlRoot` has exactly one paragraph element, but
its text node contains a literal newline, so the written output
`"a\nb"` contains one newline character and two lines, not the claimed
N − 1 = 0 newline separators and N = 1 lines. -/
theorem c2_counterexample :
    (ReadDocx.findallDesc ReadDocx.wP nlRoot).length = 1 ∧
    ReadDocx.extract nlRoot = ["a\nb"] ∧
    ReadDocx.fullText nlRoot = "a\nb" ∧
    ReadDocx.countNL (ReadDocx.fullText nlRoot) = 1 :=
  ⟨rfl, rfl, rfl, by decide⟩

/-- C2, amended.  The extraction returns exactly one paragraph string
per paragraph element of the markup, in document order, and the written
output joins them with single newline separators; therefore, provided no
extracted paragraph string itself contains a newline character, the
output contains exactly N − 1 newline characters for N paragraph
elements. -/
theorem c2_paragraph_count_and_newlines (root : ReadDocx.XElem) :
    (ReadDocx.extract root).length = (ReadDocx.findallDesc ReadDocx.wP root).length ∧
    ReadDocx.fullText root = ReadDocx.joinNL (ReadDocx.extract root) ∧
    ((∀ s ∈ ReadDocx.extract root, ReadDocx.countNL s = 0) →
      ReadDocx.countNL (ReadDocx.fullText root) =
        (ReadDocx.findallDesc ReadDocx.wP root).length - 1) := by
  refine ⟨length_extract root, rfl, ?_⟩
  intro h
  rw [show fullText root = joinNL (extract root) from rfl,
    countNL_joinNL (extract root) h, length_extract root]

/-- C2, witness: `helloRoot` has three paragraphs, none of whose texts
contains a newline, and its output has exactly two newline characters. -/
theorem c2_witness :
    ReadDocx.countNL (ReadDocx.fullText helloRoot) =
      (ReadDocx.findallDesc ReadDocx.wP helloRoot).length - 1 :=
  (c2_paragraph_count_and_newlines helloRoot).2.2 (by decide)

/-- C3.  A paragraph all of whose text nodes (beneath all of its runs)
have absent (`None`) or empty text — which subsumes a paragraph with
zero runs and runs with no text nodes — yields the empty string as its
paragraph text, and that empty string is an entry of the extracted
list, so the paragraph contributes an empty line rather than being
omitted; absent text is an empty contribution, not an error. -/
theorem c3_empty_paragraph_contributes_empty_line (root p : ReadDocx.XElem)
    (hp : p ∈ ReadDocx.findallDesc ReadDocx.wP root)
    (h : ∀ r ∈ ReadDocx.findallDesc ReadDocx.wR p,
      ∀ t ∈ ReadDocx.findallDesc ReadDocx.wT r,
        t.text = none ∨ t.text = some "") :
    ReadDocx.paraText p = "" ∧ "" ∈ ReadDocx.extract root := by
  have hfrag : fragments p = [] := by
    refine List.flatMap_eq_nil_iff.mpr ?_
    intro r hr
    refine List.filterMap_eq_nil_iff.mpr ?_
    intro t ht
    rcases h r hr t ht with h1 | h1 <;> simp [truthyText, h1]
  have hpt : paraText p = "" := by
    rw [show paraText p = joinEmpty (fragments p) from rfl, hfrag]
    rfl
  exact ⟨hpt, by rw [← hpt]; exact List.mem_map_of_mem _ hp⟩

/-- C3, witness: the run-less paragraph `pEmptyPara` of `helloRoot`
yields `""`, which appears in the extracted list. -/
theorem c3_witness :
    ReadDocx.paraText pEmptyPara = "" ∧ "" ∈ ReadDocx.extract helloRoot :=
  c3_empty_paragraph_contributes_empty_line helloRoot pEmptyPara
    (by rw [show findallDesc wP helloRoot = [pHello, pEmptyPara, pWorld] from rfl]
        exact List.mem_cons_of_mem _ (List.mem_cons_self _ _))
    (by intro r hr
        rw [show findallDesc wR pEmptyPara = [] from rfl] at hr
        cases hr)

/-- C4.  The text of every paragraph is the separator-free concatenation,
in encountered order, of the fragments collected run by run
(`fragments p` flattens the per-run fragment lists in run order); that
no separator is inserted — neither between text nodes of one run nor
between fragments of different runs — is witnessed by the length of the
paragraph text being exactly the sum of the fragment lengths. -/
theorem c4_concatenation_without_separator (p : ReadDocx.XElem) :
    ReadDocx.paraText p =
      ReadDocx.joinEmpty ((ReadDocx.findallDesc ReadDocx.wR p).flatMap ReadDocx.collectTexts) ∧
    (ReadDocx.paraText p).length = ((ReadDocx.fragments p).map String.length).sum :=
  ⟨rfl, length_joinEmpty (fragments p)⟩

/-- C5.  Whenever extraction succeeds with a list of paragraph strings,
the destination file afterwards holds exactly their join with one
newline between consecutive entries and no trailing newline; for the
spec's round-trip example the joined content is `Hello\n\nWorld`. -/
theorem c5_write_joins_with_newlines (fs : ReadDocx.FS) (i o : String)
    (texts : List String)
    (h : ReadDocx.extractDoc (fs.readFile i) = .ok texts) :
    (ReadDocx.read_docx fs i o).2.readFile o =
      some (.rawText (ReadDocx.joinNL texts)) ∧
    ReadDocx.joinNL ["Hello", "", "World"] = "Hello\n\nWorld" := by
  constructor
  · have hr : read_docx fs i o =
        (true, fs.writeFile o (.rawText (joinNL texts))) := by
      unfold read_docx
      rw [h]
    rw [hr]
    exact readFile_writeFile_same fs o _
  · rfl

/-- C5, witness: extracting the `helloRoot` package writes the file
content `Hello\n\nWorld` at the destination. -/
theorem c5_witness :
    (ReadDocx.read_docx fsHello "in.docx" "out.txt").2.readFile "out.txt" =
      some (.rawText "Hello\n\nWorld") := by
  have h := c5_write_joins_with_newlines fsHello "in.docx" "out.txt"
    ["Hello", "", "World"] rfl
  rw [h.1, h.2]

/-- C6.  Whenever the extraction phase fails — nonexistent input, input
that is not a zip archive, archive without the `word/document.xml`
entry, or malformed markup (every `DocxError`) — `read_docx` returns
`false` and leaves the filesystem untouched: the destination file is
neither created nor overwritten, since the output is only opened after
extraction has fully succeeded. -/
theorem c6_failure_writes_nothing (fs : ReadDocx.FS) (i o : String)
    (e : ReadDocx.DocxError)
    (h : ReadDocx.extractDoc (fs.readFile i) = .error e) :
    ReadDocx.read_docx fs i o = (false, fs) := by
  unfold read_docx
  rw [h]

/-- C6, witness: a nonexistent input path fails and changes nothing. -/
theorem c6_witness :
    ReadDocx.read_docx fsHello "missing.docx" "out.txt" = (false, fsHello) :=
  c6_failure_writes_nothing fsHello "missing.docx" "out.txt" .fileNotFound rfl

/-- C7.  `read_docx` is a total function into `Bool × FS` — every
failure kind of the extraction is converted into the boolean result
`false` (the `except Exception` boundary), and the boolean is `false`
exactly when some step failed; in particular a valid archive lacking
the `word/document.xml` entry yields the `keyError` failure (the spec's
`PackageError` class) rather than an uncaught crash. -/
theorem c7_failures_caught_as_boolean (fs : ReadDocx.FS) (i o : String) :
    ((ReadDocx.read_docx fs i o).1 = false ↔
      ∃ e, ReadDocx.extractDoc (fs.readFile i) = .error e) ∧
    (∀ entries : List (String × ReadDocx.EntryData),
      entries.lookup ReadDocx.docEntry = none →
        ReadDocx.extractDoc (some (.zipArchive entries)) = .error .keyError) := by
  constructor
  · cases hcase : extractDoc (fs.readFile i) with
    | error e =>
      constructor
      · intro _
        exact ⟨e, rfl⟩
      · intro _
        unfold read_docx
        rw [hcase]
    | ok texts =>
      constructor
      · intro hfalse
        have htrue : (read_docx fs i o).1 = true := by
          unfold read_docx
          rw [hcase]
        rw [hfalse] at htrue
        cases htrue
      · rintro ⟨e, he⟩
        cases he
  · intro entries hent
    show parseEntry (entries.lookup docEntry) = _
    rw [hent]
    rfl

/-- C7, witness: the archive without a `word/document.xml` entry gives
the `keyError` failure and the boolean result `false`. -/
theorem c7_witness :
    ReadDocx.extractDoc (some (.zipArchive [("other.xml", .rawBytes "junk")])) =
      .error .keyError ∧
    (ReadDocx.read_docx fsNoEntry "in.docx" "out.txt").1 = false :=
  ⟨(c7_failures_caught_as_boolean fsNoEntry "in.docx" "out.txt").2
      [("other.xml", .rawBytes "junk")] rfl,
   (c7_failures_caught_as_boolean fsNoEntry "in.docx" "out.txt").1.mpr
      ⟨.keyError, rfl⟩⟩

/-- C8, counterexample.  With the destination path equal to the input
path (`read_docx "a" "a"` on a filesystem where `a` holds a valid
package), the first run succeeds and overwrites the input with plain
text, so the second run — on the very same input and destination
paths — fails: the two runs do not produce the same success result. -/
theorem c8_counterexample :
    (ReadDocx.read_docx fsAlias "a" "a").1 = true ∧
    (ReadDocx.read_docx (ReadDocx.read_docx fsAlias "a" "a").2 "a" "a").1 = false :=
  ⟨rfl, rfl⟩

/-- C8, amended.  Running the operation twice with the same input and
destination paths always leaves byte-identical destination contents
after the second run, and — provided the destination path is distinct
from the input path — the second run also returns the same success
result as the first. -/
theorem c8_second_run_agrees (fs : ReadDocx.FS) (i o : String) :
    (ReadDocx.read_docx (ReadDocx.read_docx fs i o).2 i o).2.readFile o =
      (ReadDocx.read_docx fs i o).2.readFile o ∧
    (i ≠ o →
      (ReadDocx.read_docx (ReadDocx.read_docx fs i o).2 i o).1 =
        (ReadDocx.read_docx fs i o).1) := by
  cases hcase : extractDoc (fs.readFile i) with
  | error e =>
    have h1 : read_docx fs i o = (false, fs) := by
      unfold read_docx
      rw [hcase]
    rw [h1, h1]
    exact ⟨rfl, fun _ => rfl⟩
  | ok texts =>
    have h1 : read_docx fs i o =
        (true, fs.writeFile o (.rawText (joinNL texts))) := by
      unfold read_docx
      rw [hcase]
    rw [h1]
    by_cases hio : i = o
    · subst hio
      have h2 : (fs.writeFile i (.rawText (joinNL texts))).readFile i =
          some (.rawText (joinNL texts)) :=
        readFile_writeFile_same fs i _
      have h3 : read_docx (fs.writeFile i (.rawText (joinNL texts))) i i =
          (false, fs.writeFile i (.rawText (joinNL texts))) := by
        unfold read_docx
        rw [h2]
        rfl
      rw [h3]
      exact ⟨rfl, fun hii => absurd rfl hii⟩
    · have h2 : (fs.writeFile o (.rawText (joinNL texts))).readFile i =
          fs.readFile i :=
        readFile_writeFile_ne fs o i _ hio
      have h3 : read_docx (fs.writeFile o (.rawText (joinNL texts))) i o =
          (true, (fs.writeFile o (.rawText (joinNL texts))).writeFile o
            (.rawText (joinNL texts))) := by
        unfold read_docx
        rw [h2, hcase]
      rw [h3]
      refine ⟨?_, fun _ => rfl⟩
      rw [readFile_writeFile_same, readFile_writeFile_same]

/-- C8, witness: on distinct input and destination paths the two runs
agree both in destination contents and in success result. -/
theorem c8_witness :
    (ReadDocx.read_docx (ReadDocx.read_docx fsHello "in.docx" "out.txt").2
        "in.docx" "out.txt").2.readFile "out.txt" =
      (ReadDocx.read_docx fsHello "in.docx" "out.txt").2.readFile "out.txt" ∧
    (ReadDocx.read_docx (ReadDocx.read_docx fsHello "in.docx" "out.txt").2
        "in.docx" "out.txt").1 =
      (ReadDocx.read_docx fsHello "in.docx" "out.txt").1 :=
  ⟨(c8_second_run_agrees fsHello "in.docx" "out.txt").1,
   (c8_second_run_agrees fsHello "in.docx" "out.txt").2 (by decide)⟩

/-- C9, counterexample.  When the caller passes the input path as the
destination path, the successful run overwrites the input file: before
the call, path `a` holds the zip package; afterwards it holds the
extracted plain text — the input file's contents are not unchanged. -/
theorem c9_counterexample :
    (ReadDocx.read_docx fsAlias "a" "a").2.readFile "a" =
      some (.rawText "Hello\n\nWorld") ∧
    fsAlias.readFile "a" =
      some (.zipArchive [(ReadDocx.docEntry, .xmlDoc helloRoot)]) ∧
    (ReadDocx.read_docx fsAlias "a" "a").2.readFile "a" ≠
      fsAlias.readFile "a" := by
  refine ⟨rfl, rfl, ?_⟩
  rw [show (ReadDocx.read_docx fsAlias "a" "a").2.readFile "a" =
      some (.rawText "Hello\n\nWorld") from rfl,
    show fsAlias.readFile "a" =
      some (.zipArchive [(ReadDocx.docEntry, .xmlDoc helloRoot)]) from rfl]
  intro hcontra
  injection hcontra with h2
  exact ReadDocx.FileData.noConfusion h2

/-- C9, amended.  A run of the operation modifies no file other than the
one at the destination path: every path distinct from the destination —
in particular the input path, whenever it differs from the destination —
holds exactly the same contents afterwards as before. -/
theorem c9_only_destination_modified (fs : ReadDocx.FS) (i o q : String)
    (h : q ≠ o) :
    (ReadDocx.read_docx fs i o).2.readFile q = fs.readFile q := by
  cases hcase : extractDoc (fs.readFile i) with
  | error e =>
    have h1 : read_docx fs i o = (false, fs) := by
      unfold read_docx
      rw [hcase]
    rw [h1]
  | ok texts =>
    have h1 : read_docx fs i o =
        (true, fs.writeFile o (.rawText (joinNL texts))) := by
      unfold read_docx
      rw [hcase]
    rw [h1]
    exact readFile_writeFile_ne fs o q _ h

/-- C9, witness: with distinct input and destination paths the input
file is unchanged by a successful run. -/
theorem c9_witness :
    (ReadDocx.read_docx fsHello "in.docx" "out.txt").2.readFile "in.docx" =
      fsHello.readFile "in.docx" :=
  c9_only_destination_modified fsHello "in.docx" "out.txt" "in.docx" (by decide)

/-- C10.  On a well-formed package whose document markup contains no
paragraph element at all, `read_docx` succeeds (returns `true`) and
writes a zero-length destination file. -/
theorem c10_zero_paragraphs_write_empty_file (fs : ReadDocx.FS)
    (i o : String) (entries : List (String × ReadDocx.EntryData))
    (root : ReadDocx.XElem)
    (h1 : fs.readFile i = some (.zipArchive entries))
    (h2 : entries.lookup ReadDocx.docEntry = some (.xmlDoc root))
    (h3 : ReadDocx.findallDesc ReadDocx.wP root = []) :
    (ReadDocx.read_docx fs i o).1 = true ∧
    (ReadDocx.read_docx fs i o).2.readFile o = some (.rawText "") := by
  have hex : extractDoc (fs.readFile i) = .ok [] := by
    rw [h1]
    show parseEntry (entries.lookup docEntry) = _
    rw [h2]
    show Except.ok (extract root) = _
    rw [show extract root = (findallDesc wP root).map paraText from rfl, h3]
    rfl
  have hr : read_docx fs i o =
      (true, fs.writeFile o (.rawText (joinNL []))) := by
    unfold read_docx
    rw [hex]
  rw [hr]
  exact ⟨rfl, readFile_writeFile_same fs o _⟩

/-- C10, witness: a package with a paragraph-free document yields
success and an empty output file. -/
theorem c10_witness :
    (ReadDocx.read_docx fsEmptyDoc "in.docx" "out.txt").1 = true ∧
    (ReadDocx.read_docx fsEmptyDoc "in.docx" "out.txt").2.readFile "out.txt" =
      some (.rawText "") :=
  c10_zero_paragraphs_write_empty_file fsEmptyDoc "in.docx" "out.txt"
    [(ReadDocx.docEntry, .xmlDoc (.node "document" none []))]
    (.node "document" none []) rfl rfl rfl
